import Mathlib

/-!
Verification of the markdown preview session registry
(`src/extensions/markdown-language-features/src/features/previewManager.ts`).

The registry (`MarkdownPreviewManager`) is embedded directly from the source.
The preview-session class (`MarkdownPreview`, whose implementation file is not
part of this repository snapshot) is modelled from the specification: its
matching rule, update/toggle/refresh operations, serializable state and
revive constructor.  Resources, display columns and webview handles are
identified by natural numbers; JavaScript object identity is modelled by a
unique `id` field assigned from a fresh counter, and in-place mutation of a
session object (which is aliased by both the registry's `previews` array and
its `activePreview` reference) is modelled by updating every copy keyed by
that `id`.
-/

/-- The serializable state blob of a preview session:
`{resourceIdentifier, slotIdentifier, lockedFlag, lastScrollLine}`. -/
structure PreviewState where
  resource : Nat
  column : Nat
  locked : Bool
  line : Nat
deriving DecidableEq, Repr

/-- Modelled from the spec: a host webview-panel handle.  The registry code
cannot inspect validity; the `valid` flag records the host-side condition
"the panel handle still corresponds to a valid host panel". -/
structure Webview where
  wid : Nat
  valid : Bool
deriving DecidableEq, Repr

/-- Modelled from the spec: a text document as seen by the
active-editor-changed event; `isMarkdown` abstracts the `isMarkdownFile`
guard applied by the registry's constructor handler. -/
structure Document where
  uri : Nat
  isMarkdown : Bool
deriving DecidableEq, Repr

/-- Modelled from the spec: a preview session — a live binding between a
document resource, a UI panel (webview), a lock flag and a display column,
together with the scroll line and bookkeeping counters recording how many
times the session was asked to render / refresh / re-read configuration. -/
structure MarkdownPreview where
  id : Nat
  resource : Nat
  column : Nat
  locked : Bool
  line : Nat
  webviewId : Nat
  disposed : Bool
  renderCount : Nat
  refreshCount : Nat
  configCount : Nat
deriving DecidableEq, Repr

namespace MarkdownPreview

/-- Modelled from the spec: the matching rule — a candidate session matches
`(resource, slot, locked)` when its bound resource, display column and lock
flag all coincide with the requested ones. -/
def matchesResource (p : MarkdownPreview) (r c : Nat) (l : Bool) : Bool :=
  p.resource == r && p.column == c && p.locked == l

/-- Modelled from the spec: `matches(other)` — same resource, same slot,
same lockedness as this session.  (`matches` is a reserved word in Lean,
hence the longer name.) -/
def matchesPreview (p q : MarkdownPreview) : Bool :=
  q.matchesResource p.resource p.column p.locked

/-- Modelled from the spec: `update(resource)` re-renders for the (possibly
new) resource, unless the session is locked and the resource differs, in
which case it is a no-op. -/
def update (r : Nat) (p : MarkdownPreview) : MarkdownPreview :=
  if p.locked && !(p.resource == r) then p
  else { p with resource := r, renderCount := p.renderCount + 1 }

/-- Modelled from the spec: `toggleLock()` on a session flips its lock flag
only. -/
def toggleLock (p : MarkdownPreview) : MarkdownPreview :=
  { p with locked := !p.locked }

/-- Modelled from the spec: `refresh()` re-renders the current resource. -/
def refresh (p : MarkdownPreview) : MarkdownPreview :=
  { p with refreshCount := p.refreshCount + 1 }

/-- Modelled from the spec: `updateConfiguration()` re-reads display
configuration and re-renders. -/
def updateConfiguration (p : MarkdownPreview) : MarkdownPreview :=
  { p with configCount := p.configCount + 1 }

/-- Modelled from the spec: disposal marks the session disposed
(terminal). -/
def markDisposed (p : MarkdownPreview) : MarkdownPreview :=
  { p with disposed := true }

/-- Modelled from the spec: `isWebviewOf` — ownership of a panel handle. -/
def isWebviewOf (p : MarkdownPreview) (w : Nat) : Bool :=
  p.webviewId == w

/-- Modelled from the spec: the serializable `state` of a session. -/
def state (p : MarkdownPreview) : PreviewState :=
  { resource := p.resource, column := p.column, locked := p.locked, line := p.line }

/-- Modelled from the spec: `MarkdownPreview.create` — a fresh session bound
to `resource`, placed in column `c`, with the requested lock flag. -/
def create (i r c : Nat) (l : Bool) : MarkdownPreview :=
  { id := i, resource := r, column := c, locked := l, line := 0,
    webviewId := i, disposed := false,
    renderCount := 0, refreshCount := 0, configCount := 0 }

/-- Modelled from the spec: `MarkdownPreview.revive` — reconstructs a
session from a surviving panel handle and a serialized state blob. -/
def revive (w : Webview) (s : PreviewState) (i : Nat) : MarkdownPreview :=
  { id := i, resource := s.resource, column := s.column, locked := s.locked,
    line := s.line, webviewId := w.wid, disposed := false,
    renderCount := 0, refreshCount := 0, configCount := 0 }

end MarkdownPreview

/-- The `onDispose` handler registered by `registerPreview`: find the index
of the disposing session in `previews` (reference identity, here its `id`)
and splice it out.  Removes the first occurrence. -/
def removeById (i : Nat) : List MarkdownPreview → List MarkdownPreview
  | [] => []
  | p :: ps => if p.id == i then ps else p :: removeById i ps

/-- `disposeAll` applied to a snapshot list of victims: dispose each in
order; every disposal reentrantly runs the `onDispose` splice on the live
collection. -/
def disposeAllIn (victims : List MarkdownPreview) (l : List MarkdownPreview) :
    List MarkdownPreview :=
  victims.foldl (fun acc v => removeById v.id acc) l

/-- The state of the `MarkdownPreviewManager`: the ordered collection of
live sessions, the `activePreview` reference (a snapshot of the aliased
session object), the process-wide `markdownPreviewFocus` context value, and
a fresh-identity counter standing in for JavaScript object allocation. -/
structure MarkdownPreviewManager where
  previews : List MarkdownPreview
  activePreview : Option MarkdownPreview
  previewActiveContext : Bool
  nextId : Nat
deriving DecidableEq, Repr

namespace MarkdownPreviewManager

/-- The freshly constructed manager: no sessions, no active session. -/
def init : MarkdownPreviewManager :=
  { previews := [], activePreview := none, previewActiveContext := false, nextId := 0 }

/-- In-place mutation of the session object with identity `i`: the update is
seen through every alias — the entry of `previews` and, when it is the same
object, the `activePreview` reference. -/
def mutateById (i : Nat) (f : MarkdownPreview → MarkdownPreview)
    (st : MarkdownPreviewManager) : MarkdownPreviewManager :=
  { st with
    previews := st.previews.map (fun q => if q.id == i then f q else q),
    activePreview := st.activePreview.map (fun a => if a.id == i then f a else a) }

/-- In-place mutation of every session object (a loop over `previews`). -/
def mapAll (f : MarkdownPreview → MarkdownPreview)
    (st : MarkdownPreviewManager) : MarkdownPreviewManager :=
  { st with
    previews := st.previews.map f,
    activePreview := st.activePreview.map f }

/-- `refresh()`: `for (const preview of this.previews) preview.refresh()`. -/
def refresh (st : MarkdownPreviewManager) : MarkdownPreviewManager :=
  mapAll MarkdownPreview.refresh st

/-- `updateConfiguration()`:
`for (const preview of this.previews) preview.updateConfiguration()`. -/
def updateConfiguration (st : MarkdownPreviewManager) : MarkdownPreviewManager :=
  mapAll MarkdownPreview.updateConfiguration st

/-- `get activePreviewResource()`:
`this.activePreview && this.activePreview.resource`. -/
def activePreviewResource (st : MarkdownPreviewManager) : Option Nat :=
  st.activePreview.map (fun a => a.resource)

/-- `preview(resource, previewSettings)`: look up an existing session with
`getExistingPreview` (a `find` over `previews` using `matchesResource`);
reveal it when found (a pure UI effect), otherwise create and register a new
session; in both cases call `update(resource)` on it. -/
def preview (r c : Nat) (l : Bool) (st : MarkdownPreviewManager) :
    MarkdownPreviewManager :=
  match st.previews.find? (fun p => p.matchesResource r c l) with
  | some p => mutateById p.id (MarkdownPreview.update r) st
  | none =>
    let np := MarkdownPreview.create st.nextId r c l
    let st' := { st with previews := st.previews ++ [np], nextId := st.nextId + 1 }
    mutateById np.id (MarkdownPreview.update r) st'

/-- The body of `toggleLock`'s redundancy loop:
`for (const otherPreview of this.previews) { if (other !== preview && preview.matches(other)) other.dispose(); }`.
JavaScript `for...of` over an array reads the live array by index; each
disposal reentrantly splices the victim out, so the element that slid into
the vacated index is examined next only after the index has already moved
past it.  `fuel` bounds the recursion by the initial array length, which the
index reaches in at most that many steps. -/
def toggleLockLoop (toggled : MarkdownPreview) :
    Nat → List MarkdownPreview → Nat → List MarkdownPreview
  | 0, l, _ => l
  | fuel + 1, l, i =>
    if h : i < l.length then
      let e := l.get ⟨i, h⟩
      if e.id != toggled.id && toggled.matchesPreview e then
        toggleLockLoop toggled fuel (removeById e.id l) (i + 1)
      else
        toggleLockLoop toggled fuel l (i + 1)
    else l

/-- `toggleLock()`: flip the lock flag of the currently active session
(no-op when there is none), then run the redundancy loop disposing every
other session the toggled one now matches. -/
def toggleLock (st : MarkdownPreviewManager) : MarkdownPreviewManager :=
  match st.activePreview with
  | none => st
  | some a =>
    let st' := mutateById a.id MarkdownPreview.toggleLock st
    let t := MarkdownPreview.toggleLock a
    { st' with previews := toggleLockLoop t st'.previews.length st'.previews 0 }

/-- The `onDidChangeActiveTextEditor` handler installed by the constructor:
when the event carries a markdown document, call `update(uri)` on every
non-locked session (`this.previews.filter(p => !p.locked)`). -/
def onDidChangeActiveTextEditor (d : Option Document)
    (st : MarkdownPreviewManager) : MarkdownPreviewManager :=
  match d with
  | none => st
  | some doc =>
    if doc.isMarkdown then
      { st with
        previews := st.previews.map
          (fun p => if p.locked then p else MarkdownPreview.update doc.uri p),
        activePreview := st.activePreview.map
          (fun a => if a.locked then a else MarkdownPreview.update doc.uri a) }
    else st

/-- The `onDidChangeViewState` handler installed by `registerPreview` for
the session with identity `rid`, reporting focus state `active`: dispose a
snapshot (`filter`) of the other sessions the reporter matches, set the
`markdownPreviewFocus` context to `active`, and record the reporter as the
active session exactly when `active` is true. -/
def onDidChangeViewState (rid : Nat) (active : Bool)
    (st : MarkdownPreviewManager) : MarkdownPreviewManager :=
  match st.previews.find? (fun p => p.id == rid) with
  | none => st
  | some p =>
    let victims := st.previews.filter (fun q => q.id != p.id && p.matchesPreview q)
    { st with
      previews := disposeAllIn victims st.previews,
      previewActiveContext := active,
      activePreview := if active then some p else none }

/-- A session's `dispose()` as seen by the registry: the object is marked
disposed and the registered `onDispose` handler splices it out of
`previews`.  Nothing else in the registry reacts (in particular
`activePreview` is not cleared). -/
def disposePreview (i : Nat) (st : MarkdownPreviewManager) :
    MarkdownPreviewManager :=
  let st' := mutateById i MarkdownPreview.markDisposed st
  { st' with previews := removeById i st'.previews }

/-- `deserializeWebview(webview, state)`: revive a session from the handle
and the blob, register it exactly like a newly created one, refresh it, and
return `true`. -/
def deserializeWebview (w : Webview) (s : PreviewState)
    (st : MarkdownPreviewManager) : MarkdownPreviewManager × Bool :=
  let p := MarkdownPreview.revive w s st.nextId
  let st' := { st with previews := st.previews ++ [p], nextId := st.nextId + 1 }
  (mutateById p.id MarkdownPreview.refresh st', true)

/-- `serializeWebview(webview)`: find the session owning the handle and
return its serializable state, or `undefined` when none does. -/
def serializeWebview (w : Webview) (st : MarkdownPreviewManager) :
    Option PreviewState :=
  (st.previews.find? (fun p => p.isWebviewOf w.wid)).map MarkdownPreview.state

end MarkdownPreviewManager

/-! ### Helper lemmas -/

/-- Among sessions with pairwise-distinct identities, an identity determines
the session. -/
theorem pairwise_id_unique {l : List MarkdownPreview} {p q : MarkdownPreview}
    (hnd : l.Pairwise (fun a b => a.id ≠ b.id))
    (hp : p ∈ l) (hq : q ∈ l) (h : q.id = p.id) : q = p := by
  induction l with
  | nil => cases hp
  | cons x xs ih =>
    rcases List.pairwise_cons.mp hnd with ⟨hx, hxs⟩
    rcases List.mem_cons.mp hp with hpx | hpxs
    · rcases List.mem_cons.mp hq with hqx | hqxs
      · rw [hqx, hpx]
      · exact absurd (hpx ▸ h).symm (hx q hqxs)
    · rcases List.mem_cons.mp hq with hqx | hqxs
      · exact absurd (hqx ▸ h) (hx p hpxs)
      · exact ih hxs hpxs hqxs

/-- A map that does not change how the predicate evaluates on any member
preserves `countP`. -/
theorem countP_map_eq {l : List MarkdownPreview}
    {f : MarkdownPreview → MarkdownPreview} {pr : MarkdownPreview → Bool}
    (h : ∀ a ∈ l, pr (f a) = pr a) :
    (l.map f).countP pr = l.countP pr := by
  induction l with
  | nil => rfl
  | cons x xs ih =>
    simp only [List.map_cons, List.countP_cons,
      h x (List.mem_cons_self x xs),
      ih (fun a ha => h a (List.mem_cons_of_mem x ha))]

/-- A map that fixes every member of a list is the identity on it. -/
theorem map_eq_self_of_mem {l : List MarkdownPreview}
    {f : MarkdownPreview → MarkdownPreview}
    (h : ∀ a ∈ l, f a = a) : l.map f = l := by
  rw [List.map_congr_left h]; simp

/-- `removeById` leaves a head with a different identity in place. -/
theorem removeById_cons_ne {x : MarkdownPreview} {l : List MarkdownPreview}
    {i : Nat} (h : x.id ≠ i) :
    removeById i (x :: l) = x :: removeById i l := by
  simp [removeById, beq_eq_false_iff_ne.mpr h]

/-- Disposing a batch of victims none of which is the head leaves the head
in place. -/
theorem disposeAllIn_cons_of_ne {vs : List MarkdownPreview}
    {x : MarkdownPreview} {l : List MarkdownPreview}
    (h : ∀ v ∈ vs, v.id ≠ x.id) :
    disposeAllIn vs (x :: l) = x :: disposeAllIn vs l := by
  induction vs generalizing l with
  | nil => rfl
  | cons v vs ih =>
    have hvx : x.id ≠ v.id := fun hx => h v (List.mem_cons_self v vs) hx.symm
    simp only [disposeAllIn, List.foldl_cons, removeById_cons_ne hvx]
    exact ih (fun v' hv' => h v' (List.mem_cons_of_mem v hv'))

/-- Disposing the snapshot `l.filter pr` out of `l` removes exactly the
entries satisfying `pr` — none is skipped, none is processed twice —
provided the session identities are pairwise distinct. -/
theorem disposeAllIn_filter {l : List MarkdownPreview}
    {pr : MarkdownPreview → Bool}
    (hnd : l.Pairwise (fun a b => a.id ≠ b.id)) :
    disposeAllIn (l.filter pr) l = l.filter (fun a => !pr a) := by
  induction l with
  | nil => rfl
  | cons x xs ih =>
    rcases List.pairwise_cons.mp hnd with ⟨hx, hxs⟩
    by_cases hpx : pr x = true
    · rw [List.filter_cons_of_pos hpx]
      have hhead : disposeAllIn (x :: xs.filter pr) (x :: xs)
          = disposeAllIn (xs.filter pr) xs := by
        simp [disposeAllIn, removeById]
      rw [hhead, ih hxs, List.filter_cons_of_neg (by simp [hpx])]
    · have hpx' : pr x = false := Bool.eq_false_iff.mpr hpx
      rw [List.filter_cons_of_neg hpx]
      have hvs : ∀ v ∈ xs.filter pr, v.id ≠ x.id := fun v hv hvx => by
        exact hx v (List.mem_filter.mp hv).1 hvx.symm
      rw [disposeAllIn_cons_of_ne hvs, ih hxs,
        List.filter_cons_of_pos (by simp [hpx'])]

/-! ### Concrete scenario states

All of these are reached from the initial manager through the public entry
points alone, so every behaviour exhibited on them is reachable behaviour of
the program. -/

/-- A reachable state exercising `toggleLock`'s redundancy loop: a locked
preview of resource 2 in column 1 (the active one) next to two dynamic
previews that were retargeted to resource 2 by an active-editor change. -/
def toggleBugState : MarkdownPreviewManager :=
  MarkdownPreviewManager.onDidChangeViewState 0 true
    (MarkdownPreviewManager.onDidChangeActiveTextEditor
      (some { uri := 2, isMarkdown := true })
      (MarkdownPreviewManager.preview 1 1 false
        (MarkdownPreviewManager.preview 0 1 false
          (MarkdownPreviewManager.preview 2 1 true MarkdownPreviewManager.init))))

/-- The state after `toggleLock` on `toggleBugState`. -/
def toggleBugResult : MarkdownPreviewManager :=
  MarkdownPreviewManager.toggleLock toggleBugState

/-- The same three-sessions-one-triple shape reached with the active session
already dynamic, so that a focus-change event (rather than `toggleLock`)
performs the redundancy elimination. -/
def snapshotEliminationState : MarkdownPreviewManager :=
  MarkdownPreviewManager.onDidChangeActiveTextEditor
    (some { uri := 2, isMarkdown := true })
    (MarkdownPreviewManager.preview 1 1 false
      (MarkdownPreviewManager.preview 0 1 false
        (MarkdownPreviewManager.preview 2 1 false MarkdownPreviewManager.init)))

/-- A reachable state with a single, active preview of resource 5, which is
then disposed (its panel closed). -/
def disposeActiveResult : MarkdownPreviewManager :=
  MarkdownPreviewManager.disposePreview 0
    (MarkdownPreviewManager.onDidChangeViewState 0 true
      (MarkdownPreviewManager.preview 5 1 false MarkdownPreviewManager.init))

/-- A reachable state with two mutually non-matching previews in column 1,
the first of which is active and the context flag set. -/
def twoPaneState : MarkdownPreviewManager :=
  MarkdownPreviewManager.onDidChangeViewState 0 true
    (MarkdownPreviewManager.preview 7 1 true
      (MarkdownPreviewManager.preview 3 1 false MarkdownPreviewManager.init))

/-! ### Claim C2 -/

/-- C2 (code bug): `toggleLock` is a no-op with no active session and flips
the active session's lock flag, but its redundancy sweep does not leave
exactly one session per `(resource, slot, lockedness)` triple.  In the
reachable state `toggleBugState` (a locked active preview of resource 2 in
column 1 beside two dynamic previews retargeted to resource 2), toggling the
lock leaves TWO sessions with the triple `(2, 1, unlocked)`: disposing the
first matching session reentrantly splices the live array the `for...of`
loop is iterating, so the second matching session is skipped and survives. -/
theorem toggleLock_leaves_duplicate :
    MarkdownPreviewManager.toggleLock MarkdownPreviewManager.init
      = MarkdownPreviewManager.init
    ∧ toggleBugState.activePreview.map (fun p => p.locked) = some true
    ∧ toggleBugResult.activePreview.map (fun p => p.locked) = some false
    ∧ toggleBugResult.previews.countP (fun p => p.matchesResource 2 1 false) = 2 := by
  decide

/-! ### Claim C3 -/

/-- C3 (code bug): the `toggleLock` sweep iterates the live `previews`
collection, not a snapshot, and skips an entry.  In `toggleBugResult` the
matching session with identity 1 was disposed, but the equally matching
session with identity 2 — which slid into the vacated index — was never
processed and survives.  By contrast, the focus-change handler does use a
defensive `filter` snapshot: on the same three-sessions-one-triple shape
(`snapshotEliminationState`) it disposes both redundant sessions, leaving
exactly one. -/
theorem toggleLock_iterates_live_collection :
    toggleBugResult.previews.countP (fun p => p.id == 1) = 0
    ∧ toggleBugResult.previews.countP
        (fun p => p.id == 2 && p.matchesResource 2 1 false) = 1
    ∧ (MarkdownPreviewManager.onDidChangeViewState 0 true
        snapshotEliminationState).previews.length = 1 := by
  decide

/-! ### Claim C7 -/

/-- C7 (code bug): disposing a session removes it from the tracked
collection, but when the disposed session was the active one the registry's
`activePreview` reference is not cleared by the `onDispose` handler, so
`activePreviewResource` still reports the disposed session's resource
instead of `undefined`.  In `disposeActiveResult` the only preview (bound
to resource 5, active) has been disposed: `previews` is empty, yet the
accessor returns `some 5`. -/
theorem dispose_active_leaves_stale_accessor :
    disposeActiveResult.previews = []
    ∧ MarkdownPreviewManager.activePreviewResource disposeActiveResult = some 5
    ∧ disposeActiveResult.activePreview.map (fun p => p.disposed) = some true := by
  decide

/-! ### Claim C4 -/

/-- C4 (counterexample): an active-editor-changed event carrying a
non-markdown document with resource 7 does not retarget the unlocked live
session: the constructor's handler is guarded by `isMarkdownFile`.  The
state holds one unlocked session, and after the event no session is bound
to resource 7. -/
theorem editorChange_ignores_non_markdown :
    ((MarkdownPreviewManager.onDidChangeActiveTextEditor
        (some { uri := 7, isMarkdown := false })
        (MarkdownPreviewManager.preview 5 1 false
          MarkdownPreviewManager.init)).previews.countP
      (fun p => !p.locked) = 1)
    ∧ ((MarkdownPreviewManager.onDidChangeActiveTextEditor
        (some { uri := 7, isMarkdown := false })
        (MarkdownPreviewManager.preview 5 1 false
          MarkdownPreviewManager.init)).previews.countP
      (fun p => p.resource == 7) = 0) := by
  decide

/-! ### Claim C5 -/

/-- C5 (counterexample): `deserializeWebview` reports success and registers
a session even for a panel handle that is no longer valid: the source
returns `true` unconditionally and has no failure branch. -/
theorem deserializeWebview_succeeds_on_invalid_handle :
    ((MarkdownPreviewManager.init.deserializeWebview { wid := 9, valid := false }
        { resource := 4, column := 2, locked := true, line := 6 }).2 = true)
    ∧ ((MarkdownPreviewManager.init.deserializeWebview { wid := 9, valid := false }
        { resource := 4, column := 2, locked := true, line := 6 }).1.previews.length
      = 1) := by
  decide

/-! ### Claim C9 -/

/-- C9 (counterexample): in the reachable state `twoPaneState` (two
non-matching previews in column 1, the first active, context flag true),
the first step of the focus handover — the first session reporting
inactive — drives the `markdownPreviewFocus` context flag to `false`, so
the flag is not true at every state reached during the sequence. -/
theorem context_flag_false_mid_handover :
    twoPaneState.previewActiveContext = true
    ∧ (MarkdownPreviewManager.onDidChangeViewState 0 false
        twoPaneState).previewActiveContext = false := by
  decide

/-! ### Claim C8 -/

/-- C8: `refresh` and `updateConfiguration` instruct every live tracked
session to re-render (respectively re-read configuration), with no
condition on the lock flag: every session, locked or unlocked, appears in
the result with its counter incremented and its resource and lock flag
untouched, and no session is dropped. -/
theorem refresh_and_config_reach_every_preview
    (st : MarkdownPreviewManager) (p : MarkdownPreview)
    (hp : p ∈ st.previews) :
    MarkdownPreview.refresh p ∈ st.refresh.previews
    ∧ MarkdownPreview.updateConfiguration p ∈ st.updateConfiguration.previews
    ∧ st.refresh.previews.length = st.previews.length
    ∧ st.updateConfiguration.previews.length = st.previews.length
    ∧ (MarkdownPreview.refresh p).refreshCount = p.refreshCount + 1
    ∧ (MarkdownPreview.refresh p).locked = p.locked
    ∧ (MarkdownPreview.refresh p).resource = p.resource
    ∧ (MarkdownPreview.updateConfiguration p).configCount = p.configCount + 1
    ∧ (MarkdownPreview.updateConfiguration p).locked = p.locked
    ∧ (MarkdownPreview.updateConfiguration p).resource = p.resource := by
  refine ⟨List.mem_map_of_mem _ hp, List.mem_map_of_mem _ hp, ?_, ?_, ?_, ?_, ?_, ?_, ?_, ?_⟩
    <;> simp [MarkdownPreviewManager.refresh, MarkdownPreviewManager.updateConfiguration,
      MarkdownPreviewManager.mapAll, MarkdownPreview.refresh,
      MarkdownPreview.updateConfiguration]

/-- Witness for C8 at a concrete locked session. -/
theorem refresh_and_config_reach_every_preview_witness :
    MarkdownPreview.refresh (MarkdownPreview.update 5 (MarkdownPreview.create 0 5 1 true))
      ∈ (MarkdownPreviewManager.preview 5 1 true
          MarkdownPreviewManager.init).refresh.previews :=
  (refresh_and_config_reach_every_preview
    (MarkdownPreviewManager.preview 5 1 true MarkdownPreviewManager.init)
    (MarkdownPreview.update 5 (MarkdownPreview.create 0 5 1 true))
    (by decide)).1

/-! ### Claim C6 -/

/-- C6: `serializeWebview` returns the serializable state of the unique
tracked session owning the given panel handle when one exists, and `none`
when no tracked session owns it.  The operation is a total function, so it
cannot throw. -/
theorem serializeWebview_owner_cases
    (st : MarkdownPreviewManager) (w : Webview) :
    ((∀ p ∈ st.previews, p.webviewId ≠ w.wid) → st.serializeWebview w = none)
    ∧ (∀ p ∈ st.previews, p.webviewId = w.wid →
        (∀ q ∈ st.previews, q.webviewId = w.wid → q = p) →
        st.serializeWebview w = some p.state) := by
  constructor
  · intro h
    have hfind : st.previews.find? (fun p => p.isWebviewOf w.wid) = none :=
      List.find?_eq_none.mpr (fun x hx => by
        simp [MarkdownPreview.isWebviewOf]
        exact h x hx)
    simp [MarkdownPreviewManager.serializeWebview, hfind]
  · intro p hp hpw huniq
    cases hfind : st.previews.find? (fun q => q.isWebviewOf w.wid) with
    | none =>
      exact absurd (by simp [MarkdownPreview.isWebviewOf, hpw])
        (List.find?_eq_none.mp hfind p hp)
    | some q =>
      have hq1 := List.find?_some hfind
      have hq2 : q ∈ st.previews := List.mem_of_find?_eq_some hfind
      have hqp : q = p :=
        huniq q hq2 (by simpa [MarkdownPreview.isWebviewOf] using hq1)
      simp [MarkdownPreviewManager.serializeWebview, hfind, hqp]

/-- Witness for C6: the unique owner of handle 0 is found, and an unused
handle serializes to `none`. -/
theorem serializeWebview_owner_cases_witness :
    (MarkdownPreviewManager.preview 5 1 false
        MarkdownPreviewManager.init).serializeWebview { wid := 0, valid := true }
      = some (MarkdownPreview.update 5 (MarkdownPreview.create 0 5 1 false)).state
    ∧ (MarkdownPreviewManager.preview 5 1 false
        MarkdownPreviewManager.init).serializeWebview { wid := 3, valid := true }
      = none :=
  ⟨(serializeWebview_owner_cases
      (MarkdownPreviewManager.preview 5 1 false MarkdownPreviewManager.init)
      { wid := 0, valid := true }).2
    (MarkdownPreview.update 5 (MarkdownPreview.create 0 5 1 false))
    (by decide) (by decide) (by decide),
   (serializeWebview_owner_cases
      (MarkdownPreviewManager.preview 5 1 false MarkdownPreviewManager.init)
      { wid := 3, valid := true }).1 (by decide)⟩

/-! ### Claim C4, amended -/

/-- C4 (amended): for every active-editor-changed event carrying a
MARKDOWN document with resource R, every live session whose lock flag is
false is retargeted to R and re-rendered, every session whose lock flag is
true is untouched, and no session is created or dropped. -/
theorem editorChange_retargets_unlocked
    (st : MarkdownPreviewManager) (d : Document) (p : MarkdownPreview)
    (hmd : d.isMarkdown = true) (hp : p ∈ st.previews) :
    (p.locked = false →
      MarkdownPreview.update d.uri p
          ∈ (MarkdownPreviewManager.onDidChangeActiveTextEditor (some d) st).previews
        ∧ (MarkdownPreview.update d.uri p).resource = d.uri
        ∧ (MarkdownPreview.update d.uri p).renderCount = p.renderCount + 1)
    ∧ (p.locked = true →
        p ∈ (MarkdownPreviewManager.onDidChangeActiveTextEditor (some d) st).previews)
    ∧ (MarkdownPreviewManager.onDidChangeActiveTextEditor (some d) st).previews.length
        = st.previews.length := by
  refine ⟨fun hl => ⟨?_, ?_, ?_⟩, fun hl => ?_, ?_⟩
  · have := List.mem_map_of_mem
      (fun q => if q.locked then q else MarkdownPreview.update d.uri q) hp
    simpa [MarkdownPreviewManager.onDidChangeActiveTextEditor, hmd, hl] using this
  · simp [MarkdownPreview.update, hl]
  · simp [MarkdownPreview.update, hl]
  · have := List.mem_map_of_mem
      (fun q => if q.locked then q else MarkdownPreview.update d.uri q) hp
    simpa [MarkdownPreviewManager.onDidChangeActiveTextEditor, hmd, hl] using this
  · simp [MarkdownPreviewManager.onDidChangeActiveTextEditor, hmd]

/-- Witness for C4 at a concrete unlocked session and markdown document. -/
theorem editorChange_retargets_unlocked_witness :
    MarkdownPreview.update 9 (MarkdownPreview.update 3 (MarkdownPreview.create 0 3 1 false))
      ∈ (MarkdownPreviewManager.onDidChangeActiveTextEditor
          (some { uri := 9, isMarkdown := true })
          (MarkdownPreviewManager.preview 3 1 false
            MarkdownPreviewManager.init)).previews :=
  ((editorChange_retargets_unlocked
    (MarkdownPreviewManager.preview 3 1 false MarkdownPreviewManager.init)
    { uri := 9, isMarkdown := true }
    (MarkdownPreview.update 3 (MarkdownPreview.create 0 3 1 false))
    (by decide) (by decide)).1 (by decide)).1

/-! ### Claim C5, amended -/

/-- C5 (amended): `deserializeWebview` registers the reconstructed session
exactly like a newly created one (appending it to the tracked collection,
leaving every existing session in place), triggers an immediate refresh on
it, and reports success — for every state blob and every panel handle,
valid or not; it never returns a failure indicator. -/
theorem deserializeWebview_registers_and_succeeds
    (w : Webview) (s : PreviewState) (st : MarkdownPreviewManager)
    (hfresh : ∀ p ∈ st.previews, p.id ≠ st.nextId) :
    (st.deserializeWebview w s).2 = true
    ∧ (st.deserializeWebview w s).1.previews
        = st.previews ++ [MarkdownPreview.refresh (MarkdownPreview.revive w s st.nextId)] := by
  refine ⟨rfl, ?_⟩
  have hid : (MarkdownPreview.revive w s st.nextId).id = st.nextId := rfl
  simp only [MarkdownPreviewManager.deserializeWebview, MarkdownPreviewManager.mutateById,
    List.map_append, hid]
  have h1 : st.previews.map
      (fun q => if q.id == st.nextId then MarkdownPreview.refresh q else q) = st.previews :=
    map_eq_self_of_mem (fun a ha => by
      simp [beq_eq_false_iff_ne.mpr (hfresh a ha)])
  have h2 : [MarkdownPreview.revive w s st.nextId].map
      (fun q => if q.id == st.nextId then MarkdownPreview.refresh q else q)
      = [MarkdownPreview.refresh (MarkdownPreview.revive w s st.nextId)] := by
    simp [hid]
  rw [h1, h2]

/-- Witness for C5 on a restored state blob and a live handle. -/
theorem deserializeWebview_registers_and_succeeds_witness :
    (MarkdownPreviewManager.init.deserializeWebview { wid := 4, valid := true }
        { resource := 8, column := 2, locked := false, line := 3 }).2 = true :=
  (deserializeWebview_registers_and_succeeds { wid := 4, valid := true }
    { resource := 8, column := 2, locked := false, line := 3 }
    MarkdownPreviewManager.init (by intro p hp; cases hp)).1

/-! ### Claim C10 -/

/-- C10: on every focus-state change event reported by a tracked session —
becoming active (`b = true`) or becoming inactive (`b = false`) alike —
the registry disposes exactly the other live sessions matching the
reporter: the survivors are precisely the reporter and the non-matching
sessions, none skipped and none doubly processed, because the set to
dispose is computed as a `filter` snapshot of the collection before any
disposal splices it.  The handler also drives the context flag and the
active-session reference from the reported flag. -/
theorem viewStateChange_disposes_matching_from_snapshot
    (st : MarkdownPreviewManager) (rid : Nat) (b : Bool) (p : MarkdownPreview)
    (hfind : st.previews.find? (fun q => q.id == rid) = some p)
    (hnd : st.previews.Pairwise (fun a b => a.id ≠ b.id)) :
    (MarkdownPreviewManager.onDidChangeViewState rid b st).previews
      = st.previews.filter (fun q => !(q.id != p.id && p.matchesPreview q))
    ∧ (MarkdownPreviewManager.onDidChangeViewState rid b st).previewActiveContext = b
    ∧ (MarkdownPreviewManager.onDidChangeViewState rid b st).activePreview
        = (if b then some p else none) := by
  refine ⟨?_, ?_, ?_⟩ <;>
    simp only [MarkdownPreviewManager.onDidChangeViewState, hfind]
  · exact disposeAllIn_filter hnd

/-- Witness for C10: of two matching dynamic sessions, the one that is not
the reporter is disposed, and the reporter becomes active. -/
theorem viewStateChange_disposes_matching_from_snapshot_witness :
    (MarkdownPreviewManager.onDidChangeViewState 0 true
        { previews := [MarkdownPreview.create 0 4 1 false, MarkdownPreview.create 1 4 1 false],
          activePreview := none, previewActiveContext := false, nextId := 2 }).previews
      = [MarkdownPreview.create 0 4 1 false,
          MarkdownPreview.create 1 4 1 false].filter
          (fun q => !(q.id != (MarkdownPreview.create 0 4 1 false).id
            && (MarkdownPreview.create 0 4 1 false).matchesPreview q)) :=
  (viewStateChange_disposes_matching_from_snapshot
    { previews := [MarkdownPreview.create 0 4 1 false, MarkdownPreview.create 1 4 1 false],
      activePreview := none, previewActiveContext := false, nextId := 2 }
    0 true (MarkdownPreview.create 0 4 1 false) (by decide) (by decide)).1

/-! ### Claim C9, amended -/

/-- C9 (amended): with two live sessions that do not match each other, when
focus moves from the first session's panel to the second's — the first
reports inactive, then the second reports active — the active-session
accessor ends up designating the second session, both sessions survive, and
the context flag is true after the sequence completes; however the flag is
false (not true) in the intermediate state reached after the first session
reports inactive, because the handler drives the flag directly from each
reported focus value. -/
theorem focus_handover_updates_active
    (p1 p2 : MarkdownPreview) (st : MarkdownPreviewManager)
    (hprev : st.previews = [p1, p2])
    (hid : p1.id ≠ p2.id)
    (h12 : p1.matchesPreview p2 = false)
    (h21 : p2.matchesPreview p1 = false) :
    (MarkdownPreviewManager.onDidChangeViewState p1.id false st).previewActiveContext = false
    ∧ (MarkdownPreviewManager.onDidChangeViewState p2.id true
        (MarkdownPreviewManager.onDidChangeViewState p1.id false st)).activePreviewResource
      = some p2.resource
    ∧ (MarkdownPreviewManager.onDidChangeViewState p2.id true
        (MarkdownPreviewManager.onDidChangeViewState p1.id false st)).previewActiveContext
      = true
    ∧ (MarkdownPreviewManager.onDidChangeViewState p2.id true
        (MarkdownPreviewManager.onDidChangeViewState p1.id false st)).previews
      = [p1, p2] := by
  have hb21 : (p2.id == p1.id) = false := beq_eq_false_iff_ne.mpr (Ne.symm hid)
  have hb12 : (p1.id == p2.id) = false := beq_eq_false_iff_ne.mpr hid
  have hstep1 : MarkdownPreviewManager.onDidChangeViewState p1.id false st
      = { st with previews := [p1, p2]
                  previewActiveContext := false
                  activePreview := none } := by
    simp [MarkdownPreviewManager.onDidChangeViewState, hprev, hb21, h12,
      disposeAllIn, bne]
  have hstep2 : MarkdownPreviewManager.onDidChangeViewState p2.id true
      { st with previews := [p1, p2]
                previewActiveContext := false
                activePreview := none }
      = { st with previews := [p1, p2]
                  previewActiveContext := true
                  activePreview := some p2 } := by
    simp [MarkdownPreviewManager.onDidChangeViewState, hb12, hb21, h21,
      disposeAllIn, bne]
  rw [hstep1, hstep2]
  exact ⟨rfl, rfl, rfl, rfl⟩

/-- Witness for C9 at two concrete non-matching sessions. -/
theorem focus_handover_updates_active_witness :
    (MarkdownPreviewManager.onDidChangeViewState
        (MarkdownPreview.create 1 7 1 true).id true
        (MarkdownPreviewManager.onDidChangeViewState
          (MarkdownPreview.create 0 3 1 false).id false
          { previews := [MarkdownPreview.create 0 3 1 false, MarkdownPreview.create 1 7 1 true],
            activePreview := some (MarkdownPreview.create 0 3 1 false),
            previewActiveContext := true, nextId := 2 })).activePreviewResource
      = some (MarkdownPreview.create 1 7 1 true).resource :=
  (focus_handover_updates_active
    (MarkdownPreview.create 0 3 1 false) (MarkdownPreview.create 1 7 1 true)
    { previews := [MarkdownPreview.create 0 3 1 false, MarkdownPreview.create 1 7 1 true],
      activePreview := some (MarkdownPreview.create 0 3 1 false),
      previewActiveContext := true, nextId := 2 }
    (by decide) (by decide) (by decide) (by decide)).2.1

/-! ### Claim C1 -/

/-- Run a sequence of `preview` requests `(resource, column, locked)`
against the freshly constructed manager. -/
def runPreviews (calls : List (Nat × Nat × Bool)) : MarkdownPreviewManager :=
  calls.foldl
    (fun st c => MarkdownPreviewManager.preview c.1 c.2.1 c.2.2 st)
    MarkdownPreviewManager.init

/-- The inductive invariant maintained by `preview` requests: at most one
live session per `(resource, column, locked)` triple, pairwise-distinct
session identities, and all identities below the allocation counter. -/
def GoodState (st : MarkdownPreviewManager) : Prop :=
  (∀ (r c : Nat) (l : Bool),
    st.previews.countP (fun p => p.matchesResource r c l) ≤ 1)
  ∧ st.previews.Pairwise (fun a b => a.id ≠ b.id)
  ∧ (∀ p ∈ st.previews, p.id < st.nextId)

/-- Unfolding the matching rule into propositional equalities. -/
theorem matchesResource_iff {p : MarkdownPreview} {r c : Nat} {l : Bool} :
    p.matchesResource r c l = true ↔ p.resource = r ∧ p.column = c ∧ p.locked = l := by
  simp [MarkdownPreview.matchesResource, Bool.and_eq_true, and_assoc]

/-- `update` never changes a session's identity. -/
theorem update_id (r : Nat) (p : MarkdownPreview) :
    (MarkdownPreview.update r p).id = p.id := by
  simp only [MarkdownPreview.update]
  split <;> rfl

/-- `update` with the session's own resource re-renders without changing
the `(resource, column, locked)` data. -/
theorem update_same_resource {p : MarkdownPreview} {r : Nat} (h : p.resource = r) :
    MarkdownPreview.update r p
      = { p with resource := r, renderCount := p.renderCount + 1 } := by
  simp [MarkdownPreview.update, h]

/-- After an `update` with the session's own resource, the matching rule
evaluates as before on every triple. -/
theorem matchesResource_update_same {p : MarkdownPreview} {r : Nat}
    (h : p.resource = r) (r' c' : Nat) (l' : Bool) :
    (MarkdownPreview.update r p).matchesResource r' c' l'
      = p.matchesResource r' c' l' := by
  rw [update_same_resource h]
  simp [MarkdownPreview.matchesResource, h]

/-- The conditional mutation applied by `mutateById` never changes a
session's identity. -/
theorem ite_update_id (r i : Nat) (q : MarkdownPreview) :
    (if q.id == i then MarkdownPreview.update r q else q).id = q.id := by
  split
  · exact update_id r q
  · rfl

/-- A `preview` request preserves the invariant. -/
theorem preview_preserves_good (r c : Nat) (l : Bool)
    (st : MarkdownPreviewManager) (h : GoodState st) :
    GoodState (MarkdownPreviewManager.preview r c l st) := by
  obtain ⟨hcount, hnd, hbound⟩ := h
  unfold MarkdownPreviewManager.preview
  cases hfind : st.previews.find? (fun p => p.matchesResource r c l) with
  | some p =>
    have hpmem : p ∈ st.previews := List.mem_of_find?_eq_some hfind
    have hpr := List.find?_some hfind
    have hres : p.resource = r := (matchesResource_iff.mp hpr).1
    have hpres : ∀ a ∈ st.previews, ∀ (r' c' : Nat) (l' : Bool),
        ((if a.id == p.id then MarkdownPreview.update r a else a).matchesResource r' c' l')
          = a.matchesResource r' c' l' := by
      intro a ha r' c' l'
      by_cases hida : a.id = p.id
      · have hap : a = p := pairwise_id_unique hnd hpmem ha hida
        subst hap
        simp [matchesResource_update_same hres]
      · simp [beq_eq_false_iff_ne.mpr hida]
    refine ⟨?_, ?_, ?_⟩
    · intro r' c' l'
      simp only [MarkdownPreviewManager.mutateById]
      rw [@countP_map_eq st.previews
        (fun q => if q.id == p.id then MarkdownPreview.update r q else q)
        (fun q => q.matchesResource r' c' l')
        (fun a ha => hpres a ha r' c' l')]
      exact hcount r' c' l'
    · simp only [MarkdownPreviewManager.mutateById]
      exact List.pairwise_map.mpr
        (hnd.imp (fun hab => by simpa only [ite_update_id] using hab))
    · intro q hq
      simp only [MarkdownPreviewManager.mutateById, List.mem_map] at hq
      obtain ⟨a, ha, rfl⟩ := hq
      simpa only [MarkdownPreviewManager.mutateById, ite_update_id] using hbound a ha
  | none =>
    have hall : ∀ q ∈ st.previews, ¬ (q.matchesResource r c l = true) :=
      List.find?_eq_none.mp hfind
    have hmap : (st.previews ++ [MarkdownPreview.create st.nextId r c l]).map
        (fun q => if q.id == (MarkdownPreview.create st.nextId r c l).id
          then MarkdownPreview.update r q else q)
        = st.previews
          ++ [MarkdownPreview.update r (MarkdownPreview.create st.nextId r c l)] := by
      rw [List.map_append]
      congr 1
      · exact map_eq_self_of_mem (fun a ha => by
          simp [MarkdownPreview.create,
            beq_eq_false_iff_ne.mpr (Nat.ne_of_lt (hbound a ha))])
      · simp [MarkdownPreview.create]
    have hcrres : (MarkdownPreview.create st.nextId r c l).resource = r := rfl
    refine ⟨?_, ?_, ?_⟩
    · intro r' c' l'
      simp only [MarkdownPreviewManager.mutateById, hmap, List.countP_append]
      by_cases htr : r' = r ∧ c' = c ∧ l' = l
      · obtain ⟨h1, h2, h3⟩ := htr
        subst h1; subst h2; subst h3
        have hz : st.previews.countP (fun p => p.matchesResource r' c' l') = 0 :=
          List.countP_eq_zero.mpr hall
        have hone : ([MarkdownPreview.update r'
            (MarkdownPreview.create st.nextId r' c' l')]).countP
            (fun p => p.matchesResource r' c' l') ≤ 1 := by
          rw [List.countP_cons, List.countP_nil]
          split <;> simp
        omega
      · have hnp : (MarkdownPreview.update r
            (MarkdownPreview.create st.nextId r c l)).matchesResource r' c' l' = false := by
          rw [matchesResource_update_same hcrres]
          refine Bool.eq_false_iff.mpr (fun hcontra => htr ?_)
          obtain ⟨h1, h2, h3⟩ := matchesResource_iff.mp hcontra
          exact ⟨by simpa [MarkdownPreview.create] using h1.symm,
            by simpa [MarkdownPreview.create] using h2.symm,
            by simpa [MarkdownPreview.create] using h3.symm⟩
        simp only [List.countP_cons, List.countP_nil, hnp]
        simpa using hcount r' c' l'
    · simp only [MarkdownPreviewManager.mutateById, hmap]
      refine List.pairwise_append.mpr ⟨hnd, ?_, ?_⟩
      · simp
      · intro a ha b hb
        have hb' : b = MarkdownPreview.update r (MarkdownPreview.create st.nextId r c l) := by
          simpa using hb
        subst hb'
        have hbid : (MarkdownPreview.update r
            (MarkdownPreview.create st.nextId r c l)).id = st.nextId := by
          rw [update_id]; rfl
        rw [hbid]
        exact Nat.ne_of_lt (hbound a ha)
    · intro q hq
      simp only [MarkdownPreviewManager.mutateById, hmap, List.mem_append] at hq
      rcases hq with hq | hq
      · exact Nat.lt_succ_of_lt (hbound q hq)
      · have hq' : q = MarkdownPreview.update r (MarkdownPreview.create st.nextId r c l) := by
          simpa using hq
        subst hq'
        have : (MarkdownPreview.update r
            (MarkdownPreview.create st.nextId r c l)).id = st.nextId := by
          rw [update_id]; rfl
        rw [this]
        exact Nat.lt_succ_self st.nextId

/-- Every state reached by `preview` requests from the initial manager
satisfies the invariant. -/
theorem goodState_runPreviews (calls : List (Nat × Nat × Bool)) :
    GoodState (runPreviews calls) := by
  have hinit : GoodState MarkdownPreviewManager.init :=
    ⟨fun r c l => by simp [MarkdownPreviewManager.init],
     by simp [MarkdownPreviewManager.init],
     fun p hp => by simp [MarkdownPreviewManager.init] at hp⟩
  suffices h : ∀ (cs : List (Nat × Nat × Bool)) (st : MarkdownPreviewManager),
      GoodState st →
      GoodState (cs.foldl
        (fun s cl => MarkdownPreviewManager.preview cl.1 cl.2.1 cl.2.2 s) st) by
    exact h calls _ hinit
  intro cs
  induction cs with
  | nil => exact fun st h => h
  | cons cl cs ih =>
    exact fun st h => ih _ (preview_preserves_good cl.1 cl.2.1 cl.2.2 st h)

/-- C1: across every sequence of `preview` calls, at most one live session
carries any given `(resource, column, locked)` triple; moreover a single
`preview` call creates a session exactly when no tracked session matches
the requested triple (otherwise it reuses — reveals and updates — the
existing one, leaving the session count unchanged). -/
theorem preview_reuse_at_most_one :
    (∀ (calls : List (Nat × Nat × Bool)) (r c : Nat) (l : Bool),
      (runPreviews calls).previews.countP (fun p => p.matchesResource r c l) ≤ 1)
    ∧ (∀ (st : MarkdownPreviewManager) (r c : Nat) (l : Bool),
        (MarkdownPreviewManager.preview r c l st).previews.length
          = cond (st.previews.any (fun p => p.matchesResource r c l))
              st.previews.length (st.previews.length + 1)) := by
  constructor
  · intro calls r c l
    exact (goodState_runPreviews calls).1 r c l
  · intro st r c l
    unfold MarkdownPreviewManager.preview
    cases hfind : st.previews.find? (fun p => p.matchesResource r c l) with
    | some p =>
      have hps := List.find?_some hfind
      have hany : st.previews.any (fun p => p.matchesResource r c l) = true :=
        List.any_eq_true.mpr ⟨p, List.mem_of_find?_eq_some hfind, hps⟩
      simp [MarkdownPreviewManager.mutateById, hany]
    | none =>
      have hany : st.previews.any (fun p => p.matchesResource r c l) = false :=
        List.any_eq_false.mpr (fun x hx => List.find?_eq_none.mp hfind x hx)
      simp [MarkdownPreviewManager.mutateById, hany]
